import Mathlib

set_option maxRecDepth 8000

/-!
Verification development for the graph-telemetry service
(`services/graph-telemetry/graph_telemetry_service.py`).

The service turns a screenshot of a screen-time bar chart into a minutes
value for one requested day.  The definitions below are a shallow
embedding of the Python source: pure geometry and arithmetic is carried
out over `ℕ`, `ℤ` and `ℚ` (Python floats are modelled by exact
rationals), the OpenCV primitives (colour thresholding, contour
extraction, Hough lines) are treated as oracles whose outputs — contour
lists and gridline coordinates — are the inputs of the embedded
functions, and Python dictionaries are modelled as association lists
with insert-or-overwrite semantics.
-/

namespace GraphTelemetry

/-- Floor of a rational, computed with integer floor division. -/
def floorQ (q : ℚ) : ℤ := Int.fdiv q.num (q.den : ℤ)

/-- Python `round` to an integer: round half to even (banker's rounding),
the tie-breaking rule of Python 3's `round`. -/
def roundHalfEven (q : ℚ) : ℤ :=
  let n := floorQ q
  let frac := q - (n : ℚ)
  if frac < 1/2 then n
  else if 1/2 < frac then n + 1
  else if n % 2 = 0 then n else n + 1

/-- Python `round(x, 1)`: one decimal place, ties to even. -/
def round1 (q : ℚ) : ℚ := (roundHalfEven (q * 10) : ℚ) / 10

/-- Numeric value of a string of decimal digits, as `foldl` over the
characters (most significant first). -/
def digitsToNat (l : List Char) : ℕ :=
  l.foldl (fun acc c => 10 * acc + (c.toNat - ('0').toNat)) 0

/-- Parsing of the reported top-axis value in `calculate_minutes_for_day`:
`re.sub(r"[^\d\.]", "", raw)` keeps only digits and decimal points, then
`float(clean) if clean else 0` with a `ValueError` handler that yields 0.
`float` fails on a string with more than one dot or with no digit. -/
def parseTopValue (s : String) : ℚ :=
  let clean := s.toList.filter (fun c => c.isDigit || c == '.')
  if clean.isEmpty then 0
  else if 1 < clean.count '.' then 0
  else if !(clean.any Char.isDigit) then 0
  else
    let intPart := clean.takeWhile (fun c => c ≠ '.')
    let fracPart := (clean.dropWhile (fun c => c ≠ '.')).drop 1
    (digitsToNat intPart : ℚ) + (digitsToNat fracPart : ℚ) / 10 ^ fracPart.length

/-- The scale factor of `calculate_minutes_for_day`:
`max_value_minutes / pixel_span if pixel_span > 0 and max_value_minutes > 0 else 0`. -/
def scaleFactor (pixelSpan : ℤ) (maxValueMinutes : ℚ) : ℚ :=
  if 0 < pixelSpan ∧ 0 < maxValueMinutes then maxValueMinutes / (pixelSpan : ℚ) else 0

/-- The crop window of `calculate_minutes_for_day`:
`crop_top = max(0, max_line_y - 50)` and
`crop_bottom = min(image_height, zero_line_y + 100)`; the crop spans the
full image width.  The same cropped image is handed to the semantic
extractor and to the bar detector. -/
def cropWindow (imageHeight yTop yBottom : ℤ) : ℤ × ℤ :=
  (max 0 (yTop - 50), min imageHeight (yBottom + 100))

/-- One entry of the day→value map: `{"minutes": ..., "pixels": ...}`. -/
structure DayEntry where
  minutes : ℚ
  pixels : ℤ
deriving DecidableEq

/-- One element of the semantic `X-axis` list: `{"label": ..., "has_bar": ...}`. -/
structure Label where
  label : String
  has_bar : Bool
deriving DecidableEq

/-- A detected bar position as produced by `_process_contours_to_positions`
(the raw contour is dropped before the positions are returned). -/
structure BarPos where
  center_x : ℕ
  center_y : ℕ
  y_top : ℕ
  bbox : ℕ × ℕ × ℕ × ℕ
deriving DecidableEq

/-- Python dict assignment `m[k] = v`: overwrite the value of an existing
key in place, otherwise append the new pair at the end. -/
def dictInsert : List (String × DayEntry) → String → DayEntry → List (String × DayEntry)
  | [], k, v => [(k, v)]
  | p :: rest, k, v => if p.1 = k then (k, v) :: rest else p :: dictInsert rest k v

/-- Python dict lookup `m.get(k)`. -/
def dictGet : List (String × DayEntry) → String → Option DayEntry
  | [], _ => none
  | p :: rest, k => if p.1 = k then some p.2 else dictGet rest k

/-- The per-bar computation of the mapping loop of
`calculate_minutes_for_day`: the bar's crop-space top y is normalized by
adding the crop's top offset, `bar_pixel_height = zero_line_y -
bar_top_y_normalized`, and the minutes value is
`round(bar_pixel_height * scale, 1)`. -/
def mkEntry (zeroLineY cropTop : ℤ) (scale : ℚ) (b : BarPos) : DayEntry :=
  let ph := zeroLineY - ((b.y_top : ℤ) + cropTop)
  ⟨round1 ((ph : ℚ) * scale), ph⟩

/-- The mapping loop of `calculate_minutes_for_day` (step 6): walk the
ordered label list; a label with `has_bar` consumes the next unconsumed
bar (if any remains) and records its computed entry, every other label
records `{minutes: 0, pixels: 0}`. -/
def buildMap (zeroLineY cropTop : ℤ) (scale : ℚ) :
    List (String × DayEntry) → List Label → List BarPos → List (String × DayEntry)
  | m, [], _ => m
  | m, l :: ls, bars =>
    if l.has_bar then
      match bars with
      | b :: rest =>
        buildMap zeroLineY cropTop scale (dictInsert m l.label (mkEntry zeroLineY cropTop scale b)) ls rest
      | [] => buildMap zeroLineY cropTop scale (dictInsert m l.label ⟨0, 0⟩) ls []
    else buildMap zeroLineY cropTop scale (dictInsert m l.label ⟨0, 0⟩) ls bars

/-- The entry the mapping loop records for a label, given the bars still
unconsumed when the label is reached. -/
def entryFor (zeroLineY cropTop : ℤ) (scale : ℚ) (l : Label) (remaining : List BarPos) : DayEntry :=
  if l.has_bar then
    match remaining with
    | b :: _ => mkEntry zeroLineY cropTop scale b
    | [] => ⟨0, 0⟩
  else ⟨0, 0⟩

/-- A contour as the detectors consume it: the bounding box returned by
`cv2.boundingRect` and the area returned by `cv2.contourArea`. -/
structure Contour where
  x : ℕ
  y : ℕ
  w : ℕ
  h : ℕ
  area : ℚ
deriving DecidableEq

/-- The inputs of one `detect_bars_positions` call: the image dimensions
and, for each detection variant, the external contours that
`cv2.findContours` yields on that variant's thresholded-and-cleaned
mask (the OpenCV colour/morphology primitives are oracles of the
embedding). -/
structure BarImage where
  width : ℕ
  height : ℕ
  iosContours : List Contour
  darkContours : List Contour
  lightContours : List Contour

/-- Stable insertion of `x` into `l`: `x` is placed before the first
element strictly greater than it, hence after every element equal to it. -/
def insertStable (le : α → α → Bool) (x : α) : List α → List α
  | [] => [x]
  | y :: ys => if le x y && !(le y x) then x :: y :: ys else y :: insertStable le x ys

/-- Stable sort (the semantics of Python `list.sort` / `sorted`): elements
are inserted left to right, each after its equals. -/
def sortBy (le : α → α → Bool) (l : List α) : List α :=
  l.foldl (fun acc x => insertStable le x acc) []

/-- `np.argmax` over a list of areas: first index attaining the maximum. -/
def idxOfMaxAux : ℕ → ℚ → ℕ → List ℚ → ℕ
  | bi, _, _, [] => bi
  | bi, bv, i, a :: rest =>
    if bv < a then idxOfMaxAux i a (i + 1) rest else idxOfMaxAux bi bv (i + 1) rest

/-- `np.argmax` of a list (first maximal index; 0 on the empty list). -/
def idxOfMax : List ℚ → ℕ
  | [] => 0
  | a :: rest => idxOfMaxAux 0 a 1 rest

/-- The frame/background filter shared by `detect_android_dark_bars` and
`detect_android_light_bars`: if the largest contour alone covers more
than 80% of the total image area it is discarded (`np.argmax` picks the
first such contour), otherwise the list is kept unchanged. -/
def removeLargest (totalArea : ℚ) : List Contour → List Contour
  | [] => []
  | c :: cs =>
    let contours := c :: cs
    let areas := contours.map Contour.area
    let maxArea := areas.foldl max c.area
    if maxArea / totalArea > 4/5 then contours.eraseIdx (idxOfMax areas) else contours

/-- `_process_contours_to_positions`: bounding box to bar position
(`center_x = int(x + w/2)`, `center_y = int(y + h/2)`, `y_top = y`). -/
def contourToBarPos (c : Contour) : BarPos :=
  ⟨c.x + c.w / 2, c.y + c.h / 2, c.y, (c.x, c.y, c.w, c.h)⟩

/-- `detect_ios_bars`: keep contours of area above 300; succeed only with
at least 3 of them, otherwise return the empty list. -/
def detect_ios_bars (img : BarImage) : List BarPos :=
  let valid := img.iosContours.filter (fun c => decide (300 < c.area))
  if 3 ≤ valid.length then valid.map contourToBarPos else []

/-- A classified contour of the dark-theme variant: the contour together
with its bottom y (`y + h`) and its width. -/
structure DItem where
  cnt : Contour
  bottom : ℕ
  width : ℕ
deriving DecidableEq

/-- Build the classification record of `detect_android_dark_bars`. -/
def mkDItem (c : Contour) : DItem := ⟨c, c.y + c.h, c.w⟩

/-- The suspect test of `detect_android_dark_bars`: a contour is a suspect
when `h < 5 or w < 5 or w > img_width * 0.9`, or else when `w > h * 2.5`. -/
def isSuspectContour (imgWidth : ℕ) (c : Contour) : Bool :=
  decide (c.h < 5) || decide (c.w < 5) || decide ((c.w : ℚ) > (imgWidth : ℚ) * (9/10))
    || decide ((c.w : ℚ) > (c.h : ℚ) * (5/2))

/-- Baseline grouping of `detect_android_dark_bars`: walk the
bottom-sorted candidates and extend the current row while the next
bottom is within 30px of the row's last member, else start a new row. -/
def groupRowsAux : DItem → List DItem → List DItem → List (List DItem)
  | _, curRev, [] => [curRev.reverse]
  | last, curRev, x :: rest =>
    if (x.bottom : ℤ) - (last.bottom : ℤ) < 30 then groupRowsAux x (x :: curRev) rest
    else curRev.reverse :: groupRowsAux x [x] rest

/-- Row grouping entry point (rows of a bottom-sorted candidate list). -/
def groupRows : List DItem → List (List DItem)
  | [] => []
  | x :: rest => groupRowsAux x [x] rest

/-- Total width of a row. -/
def rowWidth (r : List DItem) : ℕ := (r.map DItem.width).sum

/-- `max(rows, key=total width, default=[])`: Python `max` keeps the first
row and replaces it only on a strictly larger key. -/
def bestRowOf : List (List DItem) → List DItem
  | [] => []
  | r :: rs => rs.foldl (fun best cand => if rowWidth best < rowWidth cand then cand else best) r

/-- `np.median` of a list of naturals: sort ascending; odd length takes
the middle element, even length averages the two middle elements. -/
def medianNat (l : List ℕ) : ℚ :=
  let s := sortBy (fun a b => decide (a ≤ b)) l
  let n := s.length
  if n = 0 then 0
  else if n % 2 = 1 then (s.getD (n / 2) 0 : ℚ)
  else ((s.getD (n / 2 - 1) 0 : ℚ) + (s.getD (n / 2) 0 : ℚ)) / 2

/-- The dark-theme variant's classified items after the frame filter. -/
def darkItems (img : BarImage) : List DItem :=
  (removeLargest ((img.height : ℚ) * (img.width : ℚ)) img.darkContours).map mkDItem

/-- The dark-theme candidates (contours passing the shape heuristics). -/
def darkCandidates (img : BarImage) : List DItem :=
  (darkItems img).filter (fun it => !(isSuspectContour img.width it.cnt))

/-- The dark-theme suspects (contours failing the shape heuristics). -/
def darkSuspects (img : BarImage) : List DItem :=
  (darkItems img).filter (fun it => isSuspectContour img.width it.cnt)

/-- Candidates sorted by bottom y (`candidates.sort(key=bottom)`). -/
def darkSorted (img : BarImage) : List DItem :=
  sortBy (fun a b => decide (a.bottom ≤ b.bottom)) (darkCandidates img)

/-- Baseline rows of the dark-theme variant. -/
def darkRows (img : BarImage) : List (List DItem) := groupRows (darkSorted img)

/-- The row with the largest total width — the true baseline row. -/
def darkBestRow (img : BarImage) : List DItem := bestRowOf (darkRows img)

/-- Median width of the baseline row. -/
def darkMedianWidth (img : BarImage) : ℚ := medianNat ((darkBestRow img).map DItem.width)

/-- Median bottom y of the baseline row. -/
def darkBaselineY (img : BarImage) : ℚ := medianNat ((darkBestRow img).map DItem.bottom)

/-- The width tolerance `max(12, median_width * 0.50)` used both for the
final width check and for the reclaim pass. -/
def darkTolerance (img : BarImage) : ℚ := max 12 (darkMedianWidth img * (1/2))

/-- Width gate: `abs(w - median_width) <= tolerance`. -/
def widthOkD (img : BarImage) (it : DItem) : Bool :=
  decide (|(it.width : ℚ) - darkMedianWidth img| ≤ darkTolerance img)

/-- Baseline gate of the reclaim pass: `abs(bottom - baseline_y) <= 30`. -/
def baselineOkD (img : BarImage) (it : DItem) : Bool :=
  decide (|(it.bottom : ℚ) - darkBaselineY img| ≤ 30)

/-- Row members passing the uniform-width check. -/
def darkFinalRow (img : BarImage) : List DItem := (darkBestRow img).filter (widthOkD img)

/-- The reclaim pass: a suspect is added back exactly when its width is
within the row tolerance and its baseline is within 30px of the row's
median baseline. -/
def darkReclaimed (img : BarImage) : List DItem :=
  (darkSuspects img).filter (fun it => widthOkD img it && baselineOkD img it)

/-- `detect_android_dark_bars`: fail (empty result) with fewer than 3
candidates or an empty baseline row; otherwise return the positions of
the width-checked row members followed by the reclaimed suspects,
together with the reclaimed items (the source keeps their raw bytes to
mark them in the debug rendering). -/
def detect_android_dark_bars (img : BarImage) : List BarPos × List DItem :=
  if (darkCandidates img).length < 3 then ([], [])
  else if (darkBestRow img).isEmpty then ([], [])
  else
    (((darkFinalRow img).map DItem.cnt ++ (darkReclaimed img).map DItem.cnt).map contourToBarPos,
      darkReclaimed img)

/-- Aspect of a light-theme contour: `w / h if h > 0 else 0`. -/
def domeAspect (c : Contour) : ℚ := if 0 < c.h then (c.w : ℚ) / (c.h : ℚ) else 0

/-- The dome filter of `detect_android_light_bars`: keep a contour when
its area is at least 100, its aspect lies in [2, 10], its height is at
least 5, its relative y is at most 0.90, and its width lies in
[10, 30% of image width]. -/
def isDome (imgHeight imgWidth : ℕ) (c : Contour) : Bool :=
  decide (100 ≤ c.area) && decide (2 ≤ domeAspect c) && decide (domeAspect c ≤ 10)
    && decide (5 ≤ c.h) && decide ((c.y : ℚ) / (imgHeight : ℚ) ≤ 9/10)
    && decide (10 ≤ c.w) && decide ((c.w : ℚ) ≤ (imgWidth : ℚ) * (3/10))

/-- `detect_android_light_bars`: frame filter, dome filter, succeed only
with at least 3 dome candidates; the candidates are sorted by center x
and their `center_y` is set to the dome's top y. -/
def detect_android_light_bars (img : BarImage) : List BarPos :=
  let filtered := removeLargest ((img.height : ℚ) * (img.width : ℚ)) img.lightContours
  let domes := filtered.filter (isDome img.height img.width)
  if 3 ≤ domes.length then
    (sortBy (fun a b => decide (a.x + a.w / 2 ≤ b.x + b.w / 2)) domes).map
      (fun c => (⟨c.x + c.w / 2, c.y, c.y, (c.x, c.y, c.w, c.h)⟩ : BarPos))
  else []

/-- Sort bar positions by center x ascending — `_draw_final_bars` sorts
the final position list in place before the caller strips the raw
contours, so the positions `detect_bars_positions` returns are in this
order. -/
def sortBarsByCenterX (l : List BarPos) : List BarPos :=
  sortBy (fun a b => decide (a.center_x ≤ b.center_x)) l

/-- `detect_bars_positions`: ordered fallback chain.  The iOS variant's
positions are used when nonempty; else the dark-theme variant's when it
found at least 3 bars; else the light-theme variant's when nonempty;
else the empty list with detection type "None".  The second component
models the `detection_type` the source selects. -/
def detect_bars_positions (img : BarImage) : List BarPos × String :=
  if !(detect_ios_bars img).isEmpty then
    (sortBarsByCenterX (detect_ios_bars img), ("iOS"))
  else if 3 ≤ ((detect_android_dark_bars img).1).length then
    (sortBarsByCenterX ((detect_android_dark_bars img).1), ("Android"))
  else if !(detect_android_light_bars img).isEmpty then
    (sortBarsByCenterX (detect_android_light_bars img), ("Android-Light"))
  else ([], ("None"))

/-- The gridline-cluster base score of `find_graph_area`:
`(len(cluster)**3 * 100) / (std_dev + 0.5)` where `std_dev` is the
standard deviation of the consecutive spacings (a nonnegative real; it
enters the score as a parameter of the embedding). -/
def baseScore (size : ℕ) (stdDev : ℚ) : ℚ := ((size : ℚ) ^ 3 * 100) / (stdDev + 1/2)

/-- The V9 location multiplier of `find_graph_area`: with
`rel = cluster_bottom / image_height`, the score is multiplied by 0.1
when `rel > 0.75` (footer kill-zone), by 0.8 when `0.65 < rel ≤ 0.75`
(danger zone), and by 1.2 otherwise (safe zone). -/
def locationMultiplier (clusterBottom imageHeight : ℚ) : ℚ :=
  let rel := clusterBottom / imageHeight
  if rel > 3/4 then 1/10
  else if rel > 13/20 then 4/5
  else 6/5

/-- The final score of a gridline cluster: base score times location
multiplier (`final_score = base_score * location_multiplier`). -/
def clusterScore (size : ℕ) (stdDev clusterBottom imageHeight : ℚ) : ℚ :=
  baseScore size stdDev * locationMultiplier clusterBottom imageHeight

/-- The semantic extractor's output contract:
`{"X-axis": [...], "Y-axisTopValue": string}`. -/
structure SemanticData where
  xAxis : List Label
  yAxisTopValue : String

/-- A successful `find_graph_area` result: the minimal (max-line) and
maximal (zero-line) y of the winning cluster. -/
structure GridResult where
  y_top : ℤ
  y_bottom : ℤ
deriving DecidableEq

/-- The per-request inputs of `calculate_minutes_for_day` once the image
is loaded: its dimensions, the grid detection outcome on the full image
(`none` models the all-passes-failed dictionary whose `y_top` and
`y_bottom` are `None`), and the outputs of the semantic extractor and of
the bar detector as functions of the crop window they are invoked on. -/
structure ImageAnalysis where
  height : ℤ
  width : ℤ
  grid : Option GridResult
  semantic : ℤ × ℤ → SemanticData
  bars : ℤ × ℤ → List BarPos

/-- Sort detected bars right-to-left:
`sorted(bars, key=center_x, reverse=True)` (stable descending). -/
def sortBarsRTL (l : List BarPos) : List BarPos :=
  sortBy (fun a b => decide (b.center_x ≤ a.center_x)) l

/-- The detailed answer record of `calculate_minutes_for_day` (the opaque
debug image is not modelled). -/
structure DayResult where
  target_day : String
  minutes : ℚ
  raw_max_value : ℚ
  zero_line_y_original : ℤ
  pixels_height : ℤ
  scale_factor : ℚ
  full_map : List (String × DayEntry)
deriving DecidableEq

/-- The result of `calculate_minutes_for_day`: either the failure
dictionary `{"error": msg}` — which carries nothing else — or the full
answer record. -/
inductive CalcResult where
  | error (msg : String)
  | ok (r : DayResult)
deriving DecidableEq

/-- `calculate_minutes_for_day`: load the image (`none` models a failed
load), detect the grid, derive the crop window, extract semantic labels
on the crop, parse the top-axis value, derive the scale, detect bars on
the crop, sort them right-to-left, build the day→value map, and look up
the requested day (minutes and pixels default to 0 when the day is
absent).  Image-load and grid failures return the error dictionary
before any further step runs. -/
def calculate_minutes_for_day (load : Option ImageAnalysis) (targetDay : String) : CalcResult :=
  match load with
  | none => .error ("Image could not be loaded")
  | some a =>
    match a.grid with
    | none => .error ("Failed to detect graph grid lines")
    | some g =>
      let zeroLineY := g.y_bottom
      let maxLineY := g.y_top
      let cw := cropWindow a.height maxLineY zeroLineY
      let semantic := a.semantic cw
      let maxValueMinutes := parseTopValue semantic.yAxisTopValue
      let scale := scaleFactor (zeroLineY - maxLineY) maxValueMinutes
      let barsRtl := sortBarsRTL (a.bars cw)
      let m := buildMap zeroLineY cw.1 scale [] semantic.xAxis barsRtl
      let rd := dictGet m targetDay
      .ok
        { target_day := targetDay
          minutes := match rd with | some e => e.minutes | none => 0
          raw_max_value := maxValueMinutes
          zero_line_y_original := zeroLineY
          pixels_height := match rd with | some e => e.pixels | none => 0
          scale_factor := scale
          full_map := m }

/-- The boundary response of `GraphTelemetryService.process_day` on the
file-path branch: either the bare failure dictionary `{"error": msg}`,
or the compatibility record
`{day, minutes, found, metadata: {scale_min_per_px, max_val_y}}`. -/
inductive BoundaryResponse where
  | errorOnly (msg : String)
  | record (day : String) (minutes : ℚ) (found : Bool) (scale_min_per_px max_val_y : ℚ)
deriving DecidableEq

/-- Shape test: is a boundary response the bare `{"error": msg}` record? -/
def BoundaryResponse.isErrorOnly : BoundaryResponse → Bool
  | .errorOnly _ => true
  | .record _ _ _ _ _ => false

/-- The file-path branch of `GraphTelemetryService.process_day`: call
`calculate_minutes_for_day` and convert its dictionary to the old format
with `result.get(key, default)` accesses.  On an error dictionary every
`get` falls back to its default, so the error is replaced by a
zero-valued record (`day = target_day`, `minutes = 0`,
`found = (0 > 0 or target_day in {})= False`, zero metadata). -/
def process_day_str (load : Option ImageAnalysis) (targetDay : String) : BoundaryResponse :=
  match calculate_minutes_for_day load targetDay with
  | .error _ => .record targetDay 0 false 0 0
  | .ok r =>
    .record r.target_day r.minutes
      (decide (0 < r.minutes) || r.full_map.any (fun p => p.1 == targetDay))
      r.scale_factor r.raw_max_value

/-! Concrete inputs used to instantiate the theorems below. -/

/-- A loaded image whose grid, semantic labels and bars reproduce the
spec's worked example: zero line 500, max line 100, top-axis value
"240", one bar whose crop-space top y 250 normalizes to 300. -/
def exampleAnalysis : ImageAnalysis :=
  { height := 1000
    width := 800
    grid := some ⟨100, 500⟩
    semantic := fun _ => ⟨[⟨("sun"), true⟩], ("240")⟩
    bars := fun _ => [⟨10, 10, 250, (0, 0, 0, 0)⟩] }

/-- A loaded image whose detected bar top lies below the zero line: the
crop-space top y 480 normalizes to 530, past the zero line at 500. -/
def negAnalysis : ImageAnalysis :=
  { height := 1000
    width := 800
    grid := some ⟨100, 500⟩
    semantic := fun _ => ⟨[⟨("sun"), true⟩], ("240")⟩
    bars := fun _ => [⟨10, 10, 480, (0, 0, 0, 0)⟩] }

/-- A loaded image on which every grid-detection pass failed. -/
def noGridAnalysis : ImageAnalysis :=
  { height := 1000
    width := 800
    grid := none
    semantic := fun _ => ⟨[], ("240")⟩
    bars := fun _ => [] }

/-- An image whose bright-bar thresholding yields three large contours. -/
def imgIOS : BarImage :=
  ⟨800, 600, [⟨10, 50, 20, 100, 400⟩, ⟨50, 50, 20, 100, 400⟩, ⟨90, 50, 20, 100, 400⟩], [], []⟩

/-- An image whose dark-theme thresholding yields three candidates on a
shared baseline plus one suspect (height 4) on the same baseline with a
matching width. -/
def imgDark : BarImage :=
  ⟨800, 600, [],
    [⟨10, 100, 20, 100, 2000⟩, ⟨40, 100, 20, 100, 2000⟩, ⟨70, 100, 20, 100, 2000⟩,
      ⟨100, 196, 20, 4, 50⟩], []⟩

/-- The suspect item of `imgDark` as the dark variant classifies it. -/
def sDItem : DItem := ⟨⟨100, 196, 20, 4, 50⟩, 200, 20⟩

/-- An image whose light-theme thresholding yields three dome contours. -/
def imgLight : BarImage :=
  ⟨800, 600, [], [],
    [⟨10, 100, 30, 10, 250⟩, ⟨60, 100, 30, 10, 250⟩, ⟨110, 100, 30, 10, 250⟩]⟩

/-- An image on which every bar-detection variant fails. -/
def imgNone : BarImage := ⟨800, 600, [], [], []⟩

/-- Seven distinct day labels, four of them flagged `has_bar`. -/
def sevenLabels : List Label :=
  [⟨("d1"), true⟩, ⟨("d2"), true⟩, ⟨("d3"), true⟩, ⟨("d4"), false⟩, ⟨("d5"), false⟩,
    ⟨("d6"), true⟩, ⟨("d7"), false⟩]

/-- Three detected bars (already in right-to-left order). -/
def threeBars : List BarPos :=
  [⟨30, 5, 300, (0, 0, 0, 0)⟩, ⟨20, 5, 310, (0, 0, 0, 0)⟩, ⟨10, 5, 320, (0, 0, 0, 0)⟩]

/-! ## Helper lemmas -/

theorem length_insertStable (le : α → α → Bool) (x : α) :
    ∀ l : List α, (insertStable le x l).length = l.length + 1 := by
  intro l
  induction l with
  | nil => rfl
  | cons y ys ih =>
    simp only [insertStable]
    split
    · simp
    · simp [ih]

theorem length_sortBy_aux (le : α → α → Bool) :
    ∀ (l : List α) (acc : List α),
      (l.foldl (fun acc x => insertStable le x acc) acc).length = acc.length + l.length := by
  intro l
  induction l with
  | nil => intro acc; simp
  | cons x xs ih =>
    intro acc
    simp only [List.foldl_cons]
    rw [ih, length_insertStable]
    simp only [List.length_cons]
    omega

theorem length_sortBy (le : α → α → Bool) (l : List α) : (sortBy le l).length = l.length := by
  simp [sortBy, length_sortBy_aux]

theorem groupRowsAux_ne_nil :
    ∀ (last : DItem) (curRev rest : List DItem), groupRowsAux last curRev rest ≠ [] := by
  intro last curRev rest
  induction rest generalizing last curRev with
  | nil => simp [groupRowsAux]
  | cons x xs ih =>
    simp only [groupRowsAux]
    split
    · exact ih x (x :: curRev)
    · simp

theorem groupRowsAux_mem_ne_nil :
    ∀ (last : DItem) (curRev rest : List DItem) (r : List DItem),
      curRev ≠ [] → r ∈ groupRowsAux last curRev rest → r ≠ [] := by
  intro last curRev rest
  induction rest generalizing last curRev with
  | nil =>
    intro r hc hr
    simp only [groupRowsAux, List.mem_singleton] at hr
    subst hr
    simpa using hc
  | cons x xs ih =>
    intro r hc hr
    simp only [groupRowsAux] at hr
    split at hr
    · exact ih x (x :: curRev) r (by simp) hr
    · rcases List.mem_cons.mp hr with h | h
      · subst h; simpa using hc
      · exact ih x [x] r (by simp) h

theorem groupRows_mem_ne_nil (l : List DItem) (r : List DItem) :
    r ∈ groupRows l → r ≠ [] := by
  cases l with
  | nil => intro h; simp [groupRows] at h
  | cons x xs => exact groupRowsAux_mem_ne_nil x [x] xs r (by simp)

theorem groupRows_ne_nil (l : List DItem) (h : l ≠ []) : groupRows l ≠ [] := by
  cases l with
  | nil => simp at h
  | cons x xs => exact groupRowsAux_ne_nil x [x] xs

theorem foldl_bestRow_mem :
    ∀ (rs : List (List DItem)) (r : List DItem),
      rs.foldl (fun best cand => if rowWidth best < rowWidth cand then cand else best) r ∈ r :: rs := by
  intro rs
  induction rs with
  | nil => intro r; simp
  | cons c cs ih =>
    intro r
    simp only [List.foldl_cons]
    by_cases hrc : rowWidth r < rowWidth c
    · rw [if_pos hrc]
      rcases List.mem_cons.mp (ih c) with h1 | h1
      · simp [h1]
      · simp [h1]
    · rw [if_neg hrc]
      rcases List.mem_cons.mp (ih r) with h1 | h1
      · simp [h1]
      · simp [h1]

theorem bestRowOf_mem (rows : List (List DItem)) (h : rows ≠ []) : bestRowOf rows ∈ rows := by
  cases rows with
  | nil => simp at h
  | cons r rs => exact foldl_bestRow_mem rs r

theorem darkBestRow_ne_nil (img : BarImage) (h : 3 ≤ (darkCandidates img).length) :
    darkBestRow img ≠ [] := by
  have hsorted : darkSorted img ≠ [] := by
    have hlen : (darkSorted img).length = (darkCandidates img).length := length_sortBy _ _
    intro hnil
    rw [hnil] at hlen
    simp at hlen
    omega
  have hrows : darkRows img ≠ [] := groupRows_ne_nil _ hsorted
  exact groupRows_mem_ne_nil _ _ (bestRowOf_mem _ hrows)

theorem dictGet_dictInsert_self (m : List (String × DayEntry)) (k : String) (v : DayEntry) :
    dictGet (dictInsert m k v) k = some v := by
  induction m with
  | nil => simp [dictInsert, dictGet]
  | cons p rest ih =>
    simp only [dictInsert]
    split
    · simp [dictGet]
    · rename_i hne
      simp only [dictGet]
      rw [if_neg hne]
      exact ih

theorem dictGet_dictInsert_ne (m : List (String × DayEntry)) (k : String) (v : DayEntry)
    (k' : String) (h : k' ≠ k) : dictGet (dictInsert m k v) k' = dictGet m k' := by
  induction m with
  | nil =>
    simp only [dictInsert, dictGet]
    rw [if_neg (fun hh => h hh.symm)]
  | cons p rest ih =>
    have h1 : ¬ k = k' := fun hh => h hh.symm
    simp only [dictInsert]
    split
    · rename_i heq
      have h2 : ¬ p.1 = k' := by rw [heq]; exact h1
      simp only [dictGet]
      rw [if_neg h1, if_neg h2]
    · simp only [dictGet]
      split
      · rfl
      · exact ih

theorem length_dictInsert_notmem (m : List (String × DayEntry)) (k : String) (v : DayEntry)
    (h : k ∉ m.map Prod.fst) : (dictInsert m k v).length = m.length + 1 := by
  induction m with
  | nil => rfl
  | cons p rest ih =>
    simp only [List.map_cons, List.mem_cons] at h
    push_neg at h
    simp only [dictInsert]
    rw [if_neg (fun hh => h.1 hh.symm)]
    simp [ih h.2]

theorem fst_dictInsert_notmem (m : List (String × DayEntry)) (k : String) (v : DayEntry)
    (h : k ∉ m.map Prod.fst) : (dictInsert m k v).map Prod.fst = m.map Prod.fst ++ [k] := by
  induction m with
  | nil => rfl
  | cons p rest ih =>
    simp only [List.map_cons, List.mem_cons] at h
    push_neg at h
    simp only [dictInsert]
    rw [if_neg (fun hh => h.1 hh.symm)]
    simp [ih h.2]

theorem buildMap_lookup_notmem (zl ct : ℤ) (scale : ℚ) :
    ∀ (labels : List Label) (m : List (String × DayEntry)) (bars : List BarPos) (k : String),
      k ∉ labels.map Label.label →
      dictGet (buildMap zl ct scale m labels bars) k = dictGet m k := by
  intro labels
  induction labels with
  | nil => intro m bars k _; rfl
  | cons l ls ih =>
    intro m bars k hk
    simp only [List.map_cons, List.mem_cons] at hk
    push_neg at hk
    simp only [buildMap]
    split
    · cases bars with
      | nil => rw [ih _ _ _ hk.2, dictGet_dictInsert_ne _ _ _ _ hk.1]
      | cons b rest => rw [ih _ _ _ hk.2, dictGet_dictInsert_ne _ _ _ _ hk.1]
    · rw [ih _ _ _ hk.2, dictGet_dictInsert_ne _ _ _ _ hk.1]

theorem buildMap_lookup (zl ct : ℤ) (scale : ℚ) :
    ∀ (pre : List Label) (l : Label) (post : List Label) (m : List (String × DayEntry))
      (bars : List BarPos),
      l.label ∉ post.map Label.label →
      dictGet (buildMap zl ct scale m (pre ++ l :: post) bars) l.label =
        some (entryFor zl ct scale l (bars.drop (pre.countP (fun x => x.has_bar)))) := by
  intro pre
  induction pre with
  | nil =>
    intro l post m bars hpost
    simp only [List.nil_append, buildMap, List.countP_nil, List.drop_zero]
    split
    · rename_i hbar
      cases bars with
      | nil =>
        rw [buildMap_lookup_notmem zl ct scale post _ _ _ hpost, dictGet_dictInsert_self]
        simp [entryFor, hbar]
      | cons b rest =>
        rw [buildMap_lookup_notmem zl ct scale post _ _ _ hpost, dictGet_dictInsert_self]
        simp [entryFor, hbar]
    · rename_i hbar
      rw [buildMap_lookup_notmem zl ct scale post _ _ _ hpost, dictGet_dictInsert_self]
      simp only [entryFor]
      rw [if_neg hbar]
  | cons p pre ih =>
    intro l post m bars hpost
    cases hbar : p.has_bar with
    | true =>
      cases bars with
      | nil =>
        have hstep : buildMap zl ct scale m ((p :: pre) ++ l :: post) [] =
            buildMap zl ct scale (dictInsert m p.label ⟨0, 0⟩) (pre ++ l :: post) [] := by
          simp [buildMap, hbar]
        rw [hstep, ih l post _ [] hpost]
        simp
      | cons b rest =>
        have hstep : buildMap zl ct scale m ((p :: pre) ++ l :: post) (b :: rest) =
            buildMap zl ct scale (dictInsert m p.label (mkEntry zl ct scale b))
              (pre ++ l :: post) rest := by
          simp [buildMap, hbar]
        rw [hstep, ih l post _ rest hpost,
          List.countP_cons_of_pos _ _ (by simp [hbar]), List.drop_succ_cons]
    | false =>
      have hstep : buildMap zl ct scale m ((p :: pre) ++ l :: post) bars =
          buildMap zl ct scale (dictInsert m p.label ⟨0, 0⟩) (pre ++ l :: post) bars := by
        simp [buildMap, hbar]
      rw [hstep, ih l post _ bars hpost,
        List.countP_cons_of_neg _ _ (by simp [hbar])]

theorem buildMap_length (zl ct : ℤ) (scale : ℚ) :
    ∀ (labels : List Label) (m : List (String × DayEntry)) (bars : List BarPos),
      ((m.map Prod.fst) ++ labels.map Label.label).Nodup →
      (buildMap zl ct scale m labels bars).length = m.length + labels.length := by
  intro labels
  induction labels with
  | nil => intro m bars _; simp [buildMap]
  | cons l ls ih =>
    intro m bars hnd
    have hnotin : l.label ∉ m.map Prod.fst := by
      rw [List.nodup_append] at hnd
      intro hmem
      exact hnd.2.2 hmem (by simp)
    have hnd' : ∀ v : DayEntry,
        (((dictInsert m l.label v).map Prod.fst) ++ ls.map Label.label).Nodup := by
      intro v
      rw [fst_dictInsert_notmem _ _ _ hnotin, List.append_assoc]
      simpa using hnd
    simp only [buildMap]
    split
    · cases bars with
      | nil =>
        rw [ih _ _ (hnd' ⟨0, 0⟩), length_dictInsert_notmem _ _ _ hnotin]
        simp; omega
      | cons b rest =>
        rw [ih _ _ (hnd' (mkEntry zl ct scale b)), length_dictInsert_notmem _ _ _ hnotin]
        simp; omega
    · rw [ih _ _ (hnd' ⟨0, 0⟩), length_dictInsert_notmem _ _ _ hnotin]
      simp; omega

theorem detect_ios_bars_nil_or_ge3 (img : BarImage) :
    detect_ios_bars img = [] ∨ 3 ≤ (detect_ios_bars img).length := by
  unfold detect_ios_bars
  dsimp only
  split
  · rename_i h
    right
    simpa using h
  · left; rfl

theorem detect_android_light_bars_nil_or_ge3 (img : BarImage) :
    detect_android_light_bars img = [] ∨ 3 ≤ (detect_android_light_bars img).length := by
  unfold detect_android_light_bars
  dsimp only
  split
  · rename_i h
    right
    rw [List.length_map, length_sortBy]
    exact h
  · left; rfl

theorem detect_ios_bars_eq_nil_of_lt (img : BarImage)
    (h : (detect_ios_bars img).length < 3) : detect_ios_bars img = [] := by
  rcases detect_ios_bars_nil_or_ge3 img with h1 | h1
  · exact h1
  · omega

theorem detect_android_light_bars_eq_nil_of_lt (img : BarImage)
    (h : (detect_android_light_bars img).length < 3) : detect_android_light_bars img = [] := by
  rcases detect_android_light_bars_nil_or_ge3 img with h1 | h1
  · exact h1
  · omega

theorem detect_android_dark_bars_snd (img : BarImage)
    (h : 3 ≤ (darkCandidates img).length) :
    (detect_android_dark_bars img).2 = darkReclaimed img := by
  unfold detect_android_dark_bars
  rw [if_neg (by omega)]
  rw [if_neg (by simp [List.isEmpty_iff, darkBestRow_ne_nil img h])]

theorem mem_darkReclaimed_iff (img : BarImage) (it : DItem) :
    it ∈ darkReclaimed img ↔
      it ∈ darkSuspects img ∧
        |(it.width : ℚ) - darkMedianWidth img| ≤ darkTolerance img ∧
        |(it.bottom : ℚ) - darkBaselineY img| ≤ 30 := by
  simp [darkReclaimed, List.mem_filter, widthOkD, baselineOkD]

/-! ## Claim theorems -/

/-- C5: In the dark-theme variant, whenever the reclaim pass runs (at
least 3 candidate contours were found), a suspect contour is added back
into the final set if and only if both its width is within
max(12, 0.5 × medianRowWidth) of the row's median width and its bottom y
is within 30px of the row's median baseline; a suspect whose width
deviates from the row median by more than that tolerance is never
reclaimed, regardless of baseline match. -/
theorem dark_reclaim_gate (img : BarImage) (h3 : 3 ≤ (darkCandidates img).length) :
    (∀ it : DItem,
        it ∈ (detect_android_dark_bars img).2 ↔
          it ∈ darkSuspects img ∧
            |(it.width : ℚ) - darkMedianWidth img| ≤ max 12 (darkMedianWidth img * (1/2)) ∧
            |(it.bottom : ℚ) - darkBaselineY img| ≤ 30) ∧
    (∀ it : DItem, it ∈ darkSuspects img →
        max 12 (darkMedianWidth img * (1/2)) < |(it.width : ℚ) - darkMedianWidth img| →
        it ∉ (detect_android_dark_bars img).2) := by
  have hsnd := detect_android_dark_bars_snd img h3
  constructor
  · intro it
    rw [hsnd, mem_darkReclaimed_iff]
    simp only [darkTolerance]
  · intro it _ hgt hmem
    rw [hsnd, mem_darkReclaimed_iff] at hmem
    have h1 := hmem.2.1
    simp only [darkTolerance] at h1
    linarith

/-- C5 witness: on `imgDark` the reclaim pass runs and its suspect item
(width equal to the row median, baseline equal to the row baseline) is
reclaimed. -/
theorem dark_reclaim_gate_witness : sDItem ∈ (detect_android_dark_bars imgDark).2 :=
  ((dark_reclaim_gate imgDark (by with_unfolding_all decide)).1 sDItem).mpr
    (by with_unfolding_all decide)

/-- C9: For every input image, the bar-position list returned by
`detect_bars_positions` has length 0 or length at least 3 — never 1 or
2 — since every variant's output is adopted only when it contains at
least 3 bars. -/
theorem detector_all_or_nothing (img : BarImage) :
    ((detect_bars_positions img).1).length = 0 ∨ 3 ≤ ((detect_bars_positions img).1).length := by
  unfold detect_bars_positions
  rcases detect_ios_bars_nil_or_ge3 img with hios | hios
  · simp only [hios, List.isEmpty_nil, Bool.not_true, Bool.false_eq_true, if_false]
    by_cases hdark : 3 ≤ ((detect_android_dark_bars img).1).length
    · rw [if_pos hdark]
      right
      simpa [sortBarsByCenterX, length_sortBy] using hdark
    · rw [if_neg hdark]
      rcases detect_android_light_bars_nil_or_ge3 img with hlight | hlight
      · simp [hlight]
      · have hne : (detect_android_light_bars img).isEmpty = false := by
          cases hh : detect_android_light_bars img with
          | nil => rw [hh] at hlight; simp at hlight
          | cons a l => rfl
        rw [hne]
        right
        simpa [sortBarsByCenterX, length_sortBy] using hlight
  · have hne : (detect_ios_bars img).isEmpty = false := by
      cases hh : detect_ios_bars img with
      | nil => rw [hh] at hios; simp at hios
      | cons a l => rfl
    rw [hne]
    right
    simpa [sortBarsByCenterX, length_sortBy] using hios

/-- C4: Bar detection tries the variants in the fixed order
bright-bar (iOS) → dark-theme → light-theme/dome; a variant's positions
are adopted only when it found at least 3 bars; a later variant's inputs
are irrelevant once an earlier variant has succeeded (the modified
contour lists below leave the result unchanged); and when all three fail
the result is the empty list with detection type "None". -/
theorem bar_variant_priority (img : BarImage) :
    (3 ≤ (detect_ios_bars img).length →
      ∀ d l : List Contour,
        detect_bars_positions { img with darkContours := d, lightContours := l } =
          (sortBarsByCenterX (detect_ios_bars img), ("iOS"))) ∧
    ((detect_ios_bars img).length < 3 →
      3 ≤ ((detect_android_dark_bars img).1).length →
      ∀ l : List Contour,
        detect_bars_positions { img with lightContours := l } =
          (sortBarsByCenterX ((detect_android_dark_bars img).1), ("Android"))) ∧
    ((detect_ios_bars img).length < 3 →
      ((detect_android_dark_bars img).1).length < 3 →
      3 ≤ (detect_android_light_bars img).length →
      detect_bars_positions img =
        (sortBarsByCenterX (detect_android_light_bars img), ("Android-Light"))) ∧
    ((detect_ios_bars img).length < 3 →
      ((detect_android_dark_bars img).1).length < 3 →
      (detect_android_light_bars img).length < 3 →
      detect_bars_positions img = ([], ("None"))) := by
  refine ⟨?_, ?_, ?_, ?_⟩
  · intro h d l
    have hmod : detect_ios_bars { img with darkContours := d, lightContours := l } =
        detect_ios_bars img := rfl
    have hne : (detect_ios_bars img).isEmpty = false := by
      cases hh : detect_ios_bars img with
      | nil => rw [hh] at h; simp at h
      | cons a as => rfl
    unfold detect_bars_positions
    rw [hmod, hne]
    rfl
  · intro hios hdark l
    have hmodi : detect_ios_bars { img with lightContours := l } = detect_ios_bars img := rfl
    have hmodd : detect_android_dark_bars { img with lightContours := l } =
        detect_android_dark_bars img := rfl
    have hiosnil : detect_ios_bars img = [] := detect_ios_bars_eq_nil_of_lt img hios
    unfold detect_bars_positions
    rw [hmodi, hmodd, hiosnil]
    simp only [List.isEmpty_nil, Bool.not_true, Bool.false_eq_true, if_false]
    rw [if_pos hdark]
  · intro hios hdark hlight
    have hiosnil : detect_ios_bars img = [] := detect_ios_bars_eq_nil_of_lt img hios
    have hne : (detect_android_light_bars img).isEmpty = false := by
      cases hh : detect_android_light_bars img with
      | nil => rw [hh] at hlight; simp at hlight
      | cons a as => rfl
    unfold detect_bars_positions
    rw [hiosnil]
    simp only [List.isEmpty_nil, Bool.not_true, Bool.false_eq_true, if_false]
    rw [if_neg (by omega), hne]
    rfl
  · intro hios hdark hlight
    have hiosnil : detect_ios_bars img = [] := detect_ios_bars_eq_nil_of_lt img hios
    have hlightnil : detect_android_light_bars img = [] :=
      detect_android_light_bars_eq_nil_of_lt img hlight
    unfold detect_bars_positions
    rw [hiosnil, hlightnil]
    simp only [List.isEmpty_nil, Bool.not_true, Bool.false_eq_true, if_false]
    rw [if_neg (by omega)]

/-- C4 witness: concrete images exercising each arm of the fallback
chain. -/
theorem bar_variant_priority_witness :
    detect_bars_positions imgIOS = (sortBarsByCenterX (detect_ios_bars imgIOS), ("iOS")) ∧
    detect_bars_positions imgDark =
      (sortBarsByCenterX ((detect_android_dark_bars imgDark).1), ("Android")) ∧
    detect_bars_positions imgLight =
      (sortBarsByCenterX (detect_android_light_bars imgLight), ("Android-Light")) ∧
    detect_bars_positions imgNone = ([], ("None")) := by
  refine ⟨?_, ?_, ?_, ?_⟩
  · exact (bar_variant_priority imgIOS).1 (by with_unfolding_all decide)
      imgIOS.darkContours imgIOS.lightContours
  · exact (bar_variant_priority imgDark).2.1 (by with_unfolding_all decide)
      (by with_unfolding_all decide) imgDark.lightContours
  · exact (bar_variant_priority imgLight).2.2.1 (by with_unfolding_all decide)
      (by with_unfolding_all decide) (by with_unfolding_all decide)
  · exact (bar_variant_priority imgNone).2.2.2 (by with_unfolding_all decide)
      (by with_unfolding_all decide) (by with_unfolding_all decide)

theorem parseTopValue_nonneg (s : String) : 0 ≤ parseTopValue s := by
  unfold parseTopValue
  dsimp only
  split_ifs <;> try norm_num
  positivity

/-- C3: The scale factor equals topValue / pixelSpan when both the parsed
top-axis value and the pixel span are strictly positive, and 0 in every
other case (including an unparseable top value, which parses to 0); it
is never negative, and in the branch that divides, the divisor is
nonzero. -/
theorem scale_factor_spec (pixelSpan : ℤ) (s : String) :
    (0 < pixelSpan ∧ 0 < parseTopValue s →
      scaleFactor pixelSpan (parseTopValue s) = parseTopValue s / (pixelSpan : ℚ) ∧
        (pixelSpan : ℚ) ≠ 0) ∧
    (¬(0 < pixelSpan ∧ 0 < parseTopValue s) → scaleFactor pixelSpan (parseTopValue s) = 0) ∧
    0 ≤ parseTopValue s ∧
    0 ≤ scaleFactor pixelSpan (parseTopValue s) := by
  refine ⟨?_, ?_, parseTopValue_nonneg s, ?_⟩
  · intro h
    refine ⟨by rw [scaleFactor, if_pos h], ?_⟩
    exact Int.cast_ne_zero.mpr (by omega)
  · intro h
    rw [scaleFactor, if_neg h]
  · rw [scaleFactor]
    split_ifs with h
    · exact div_nonneg (le_of_lt h.2) (by exact_mod_cast le_of_lt h.1)
    · exact le_refl 0

/-- C3 witness: span 400 and value "240" divide (by the nonzero span);
a non-positive span yields 0. -/
theorem scale_factor_spec_witness :
    scaleFactor 400 (parseTopValue ("240")) = parseTopValue ("240") / (400 : ℚ) ∧
    scaleFactor (-5) (parseTopValue ("240")) = 0 := by
  constructor
  · exact ((scale_factor_spec 400 ("240")).1 ⟨by norm_num, by with_unfolding_all decide⟩).1
  · exact (scale_factor_spec (-5) ("240")).2.1 (by intro h; exact absurd h.1 (by norm_num))

/-- C6: A gridline cluster's score is its base score times the location
multiplier: 0.1 when the cluster bottom lies below 0.75 of image height,
0.8 in the band (0.65, 0.75], and 1.2 otherwise; hence for equal size
and spacing standard deviation, a cluster whose bottom lies above the
65% height mark always outscores one whose bottom lies below the 75%
mark. -/
theorem cluster_score_location (size : ℕ) (stdDev b1 b2 ht : ℚ)
    (hsz : 0 < size) (hstd : 0 ≤ stdDev) :
    (b2 / ht > 3/4 → clusterScore size stdDev b2 ht = baseScore size stdDev * (1/10)) ∧
    (13/20 < b2 / ht → b2 / ht ≤ 3/4 →
      clusterScore size stdDev b2 ht = baseScore size stdDev * (4/5)) ∧
    (b1 / ht ≤ 13/20 → clusterScore size stdDev b1 ht = baseScore size stdDev * (6/5)) ∧
    (b1 / ht ≤ 13/20 → 3/4 < b2 / ht →
      clusterScore size stdDev b2 ht < clusterScore size stdDev b1 ht) := by
  have hbase : 0 < baseScore size stdDev := by
    unfold baseScore
    apply div_pos
    · have hq : (0 : ℚ) < (size : ℚ) := by exact_mod_cast hsz
      positivity
    · linarith
  refine ⟨?_, ?_, ?_, ?_⟩
  · intro hb
    simp only [clusterScore, locationMultiplier]
    rw [if_pos hb]
  · intro hlo hhi
    simp only [clusterScore, locationMultiplier]
    rw [if_neg (not_lt.mpr hhi), if_pos hlo]
  · intro h1
    simp only [clusterScore, locationMultiplier]
    rw [if_neg (not_lt.mpr (le_trans h1 (by norm_num))), if_neg (not_lt.mpr h1)]
  · intro h1 h2
    have ha : clusterScore size stdDev b1 ht = baseScore size stdDev * (6/5) := by
      simp only [clusterScore, locationMultiplier]
      rw [if_neg (not_lt.mpr (le_trans h1 (by norm_num))), if_neg (not_lt.mpr h1)]
    have hb : clusterScore size stdDev b2 ht = baseScore size stdDev * (1/10) := by
      simp only [clusterScore, locationMultiplier]
      rw [if_pos h2]
    rw [ha, hb]
    exact mul_lt_mul_of_pos_left (by norm_num) hbase

/-- C6 witness: two 3-line clusters with equal spacing deviation in a
1000px image, bottoms at 600 (safe zone) and 800 (kill zone). -/
theorem cluster_score_location_witness :
    clusterScore 3 0 800 1000 < clusterScore 3 0 600 1000 :=
  (cluster_score_location 3 0 600 800 1000 (by norm_num) (by norm_num)).2.2.2
    (by norm_num) (by norm_num)

/-- C8 counterexample: with image height 1000, max line 30 and zero line
960 the crop window is clamped to (0, 1000), not
(maxLineY − 50, zeroLineY + 100) = (−20, 1060) as the claim states for
every image and grid. -/
theorem crop_window_clamp_cex :
    cropWindow 1000 30 960 = (0, 1000) ∧ cropWindow 1000 30 960 ≠ (30 - 50, 960 + 100) := by
  constructor
  · decide
  · decide

/-- C8 amended: the crop window's top edge is maxLineY − 50 clamped below
at 0, and its bottom edge is zeroLineY + 100 clamped above at the image
height; the unclamped equalities hold exactly when 50 ≤ maxLineY,
respectively zeroLineY + 100 ≤ imageHeight. -/
theorem crop_window_amended (imageHeight yTop yBottom : ℤ) :
    (cropWindow imageHeight yTop yBottom =
      (max 0 (yTop - 50), min imageHeight (yBottom + 100))) ∧
    (50 ≤ yTop → (cropWindow imageHeight yTop yBottom).1 = yTop - 50) ∧
    (yTop < 50 → (cropWindow imageHeight yTop yBottom).1 = 0) ∧
    (yBottom + 100 ≤ imageHeight → (cropWindow imageHeight yTop yBottom).2 = yBottom + 100) ∧
    (imageHeight < yBottom + 100 → (cropWindow imageHeight yTop yBottom).2 = imageHeight) := by
  refine ⟨rfl, ?_, ?_, ?_, ?_⟩ <;> intro h <;> simp only [cropWindow] <;> omega

/-- C8 witness: an unclamped window at (1000, 100, 500) and a clamped one
at (1000, 30, 960). -/
theorem crop_window_amended_witness :
    (cropWindow 1000 100 500).1 = 100 - 50 ∧ (cropWindow 1000 30 960).1 = 0 ∧
    (cropWindow 1000 100 500).2 = 500 + 100 ∧ (cropWindow 1000 30 960).2 = 1000 := by
  refine ⟨?_, ?_, ?_, ?_⟩
  · exact (crop_window_amended 1000 100 500).2.1 (by decide)
  · exact (crop_window_amended 1000 30 960).2.2.1 (by decide)
  · exact (crop_window_amended 1000 100 500).2.2.2.1 (by decide)
  · exact (crop_window_amended 1000 30 960).2.2.2.2 (by decide)

/-- C2 counterexample: on an image-load failure, the file-path branch of
`process_day` does not return the `{error: string}` record — the error
is replaced by a zero-valued success-shaped record. -/
theorem boundary_error_shape_cex :
    process_day_str none ("sun") = .record ("sun") 0 false 0 0 ∧
    (process_day_str none ("sun")).isErrorOnly = false := ⟨rfl, rfl⟩

/-- C2 amended: image-load and grid-detection failures abort
`calculate_minutes_for_day` before any further step and its result is
exactly the `{error: string}` record with no other fields; but the
file-path branch of `process_day` converts either failure into the
zero-valued compatibility record (day = targetDay, minutes = 0,
found = false, zero metadata) instead of the error record. -/
theorem boundary_error_shape_amended (a : ImageAnalysis) (targetDay : String)
    (hg : a.grid = none) :
    calculate_minutes_for_day none targetDay = .error ("Image could not be loaded") ∧
    calculate_minutes_for_day (some a) targetDay =
      .error ("Failed to detect graph grid lines") ∧
    process_day_str none targetDay = .record targetDay 0 false 0 0 ∧
    process_day_str (some a) targetDay = .record targetDay 0 false 0 0 := by
  have h2 : calculate_minutes_for_day (some a) targetDay =
      .error ("Failed to detect graph grid lines") := by
    simp [calculate_minutes_for_day, hg]
  refine ⟨rfl, h2, rfl, ?_⟩
  unfold process_day_str
  rw [h2]

/-- C2 witness: a loaded image on which grid detection failed. -/
theorem boundary_error_shape_amended_witness :
    process_day_str (some noGridAnalysis) ("sun") = .record ("sun") 0 false 0 0 :=
  (boundary_error_shape_amended noGridAnalysis ("sun") rfl).2.2.2

/-- C10: Bar pixel height and minutes are not clamped at zero: on a
concrete input whose matched bar's normalized top y (530) exceeds the
zero line (500), the recorded entry and the returned minutes for the
target day are strictly negative (pixels −30, minutes −18.0). -/
theorem negative_minutes_possible :
    calculate_minutes_for_day (some negAnalysis) ("sun") =
      .ok { target_day := ("sun"), minutes := -18, raw_max_value := 240,
            zero_line_y_original := 500, pixels_height := -30, scale_factor := 3/5,
            full_map := [(("sun"), ⟨-18, -30⟩)] } ∧
    (-18 : ℚ) < 0 :=
  ⟨by with_unfolding_all decide, by norm_num⟩

/-- C7 counterexample: with two labels sharing the name "a" (first
without a bar, second with one) and one detected bar, the day→value map
has a single entry, not one per semantic label, and the entry recorded
under "a" is not {minutes: 0, pixels: 0} although a `has_bar = false`
label named "a" exists. -/
theorem day_map_duplicate_cex :
    (buildMap 500 0 1 [] [⟨("a"), false⟩, ⟨("a"), true⟩] [⟨5, 5, 400, (0, 0, 0, 0)⟩]).length
        = 1 ∧
    dictGet (buildMap 500 0 1 [] [⟨("a"), false⟩, ⟨("a"), true⟩] [⟨5, 5, 400, (0, 0, 0, 0)⟩])
        ("a") = some ⟨100, 100⟩ := by
  with_unfolding_all decide

/-- C7 amended: when the label names are pairwise distinct (the intended
day-of-week inputs; duplicate names collapse since the map is keyed by
name), the map has exactly one entry per semantic label; every label
with `has_bar = false` gets {minutes: 0, pixels: 0} without consuming a
bar, and every `has_bar = true` label for which no unconsumed bar
remains gets {minutes: 0, pixels: 0} non-fatally. -/
theorem day_map_entries_amended (zl ct : ℤ) (scale : ℚ) (labels : List Label)
    (bars : List BarPos) (hnd : (labels.map Label.label).Nodup) :
    ((buildMap zl ct scale [] labels bars).length = labels.length) ∧
    (∀ pre l post, labels = pre ++ l :: post → l.has_bar = false →
      dictGet (buildMap zl ct scale [] labels bars) l.label = some ⟨0, 0⟩) ∧
    (∀ pre l post, labels = pre ++ l :: post → l.has_bar = true →
      bars.length ≤ pre.countP (fun x => x.has_bar) →
      dictGet (buildMap zl ct scale [] labels bars) l.label = some ⟨0, 0⟩) := by
  refine ⟨?_, ?_, ?_⟩
  · have h := buildMap_length zl ct scale labels [] bars (by simpa using hnd)
    simpa using h
  · intro pre l post hdecomp hfalse
    subst hdecomp
    have hpost : l.label ∉ post.map Label.label := by
      have h1 : ((pre.map Label.label) ++ l.label :: post.map Label.label).Nodup := by
        simpa using hnd
      exact (List.nodup_cons.mp (List.nodup_append.mp h1).2.1).1
    rw [buildMap_lookup zl ct scale pre l post [] bars hpost]
    simp [entryFor, hfalse]
  · intro pre l post hdecomp htrue hle
    subst hdecomp
    have hpost : l.label ∉ post.map Label.label := by
      have h1 : ((pre.map Label.label) ++ l.label :: post.map Label.label).Nodup := by
        simpa using hnd
      exact (List.nodup_cons.mp (List.nodup_append.mp h1).2.1).1
    rw [buildMap_lookup zl ct scale pre l post [] bars hpost]
    have hdrop : bars.drop (pre.countP (fun x => x.has_bar)) = [] :=
      List.drop_eq_nil_of_le hle
    rw [hdrop]
    simp [entryFor, htrue]

/-- C7 witness: seven distinct labels, four flagged `has_bar`, three
detected bars — the fourth true label's entry is {0, 0} and the map
still has all seven entries. -/
theorem day_map_entries_amended_witness :
    (buildMap 500 50 1 [] sevenLabels threeBars).length = 7 ∧
    dictGet (buildMap 500 50 1 [] sevenLabels threeBars) ("d6") = some ⟨0, 0⟩ := by
  have hnd : (sevenLabels.map Label.label).Nodup := by with_unfolding_all decide
  constructor
  · exact (day_map_entries_amended 500 50 1 sevenLabels threeBars hnd).1.trans (by rfl)
  · exact (day_map_entries_amended 500 50 1 sevenLabels threeBars hnd).2.2
      [⟨("d1"), true⟩, ⟨("d2"), true⟩, ⟨("d3"), true⟩, ⟨("d4"), false⟩, ⟨("d5"), false⟩]
      ⟨("d6"), true⟩ [⟨("d7"), false⟩] (by with_unfolding_all decide) rfl
      (by with_unfolding_all decide)

/-- C1: A `has_bar = true` label paired with a remaining detected bar
gets the entry whose pixel height is zeroLineY minus the bar's
crop-space top y plus the crop top offset, and whose minutes value is
pixelHeight × scale rounded to one decimal; in particular with
zeroLineY = 500, maxLineY = 100, top-axis value "240" (scale 3/5 = 0.6)
and a bar normalizing to top y 300, the pipeline records pixel height
200 and minutes 120.0. -/
theorem minutes_arithmetic_spec :
    (∀ (zl ct : ℤ) (scale : ℚ) (pre : List Label) (l : Label) (post : List Label)
        (bars : List BarPos) (b : BarPos) (rest : List BarPos),
        l.label ∉ post.map Label.label → l.has_bar = true →
        bars.drop (pre.countP (fun x => x.has_bar)) = b :: rest →
        dictGet (buildMap zl ct scale [] (pre ++ l :: post) bars) l.label =
          some ⟨round1 (((zl - ((b.y_top : ℤ) + ct) : ℤ) : ℚ) * scale),
                zl - ((b.y_top : ℤ) + ct)⟩) ∧
    calculate_minutes_for_day (some exampleAnalysis) ("sun") =
      .ok { target_day := ("sun"), minutes := 120, raw_max_value := 240,
            zero_line_y_original := 500, pixels_height := 200, scale_factor := 3/5,
            full_map := [(("sun"), ⟨120, 200⟩)] } := by
  constructor
  · intro zl ct scale pre l post bars b rest hpost htrue hdrop
    rw [buildMap_lookup zl ct scale pre l post [] bars hpost, hdrop]
    simp [entryFor, htrue, mkEntry]
  · with_unfolding_all decide

/-- C1 witness: the second of two right-to-left bars is consumed by the
second true label and yields pixel height 200, minutes 120. -/
theorem minutes_arithmetic_spec_witness :
    dictGet (buildMap 500 50 (3/5) [] [⟨("sat"), true⟩, ⟨("sun"), true⟩]
        [⟨30, 5, 250, (0, 0, 0, 0)⟩, ⟨20, 5, 250, (0, 0, 0, 0)⟩]) ("sun") =
      some ⟨120, 200⟩ := by
  have h := minutes_arithmetic_spec.1 500 50 (3/5) [⟨("sat"), true⟩] ⟨("sun"), true⟩ []
      [⟨30, 5, 250, (0, 0, 0, 0)⟩, ⟨20, 5, 250, (0, 0, 0, 0)⟩] ⟨20, 5, 250, (0, 0, 0, 0)⟩ []
      (by simp) rfl (by with_unfolding_all decide)
  exact h.trans (by with_unfolding_all decide)

end GraphTelemetry
